import Mathlib

/-!
# Verification of the aptos-go-sdk client core

Shallow embedding of `src/client.go` (the `Client` facade and `NewClient`)
together with spec-modelled definitions for the `NodeClient` operations whose
implementation is not part of the sources (pagination, polling, chain-id
cache, batch submission, view invocation).  Theorems settle the frozen
claims about pagination ordering, polling timing and error policy, chain-id
caching, batch failure reporting, multi-agent build validation, client
construction options, unconfigured sub-clients, and view decoding.
-/

namespace AptosGo

/-- An event record as in `api.Event`: type tag, guid (creation number and
account address, abstracted to a `Nat` pair), sequence number, opaque data
(abstracted to a `Nat`). Mirrors the fields the tests inspect
(`SequenceNumber`). -/
structure Event where
  typeTag : String
  guidCreationNumber : Nat
  guidAccountAddress : Nat
  sequenceNumber : Nat
  data : Nat
  deriving Repr, DecidableEq

/-- Page size for concurrent event fetching: the server's observed default
limit of 100 records per page (spec section 3, "limit (nullable => default
100)"; section 5, "fan-out = ceil(limit / page size)"). -/
def pageSize : Nat := 100

/-- Modelled from the spec: `EventsByHandle`/`EventsByCreationNumber`
partition the requested `[start, start+limit)` range into fixed-size
sub-ranges of at most `pageSize` records each (the NodeClient implementation
of this partitioning is not among the sources; spec section 4.6: "the fetcher
partitions the requested [start, start+limit) range into fixed-size
sub-ranges"). Returns the list of `(pageStart, pageLimit)` pairs in ascending
start order. -/
def pageRanges (start limit : Nat) : List (Nat × Nat) :=
  if limit ≤ pageSize then [(start, limit)]
  else (start, pageSize) :: pageRanges (start + pageSize) (limit - pageSize)
  termination_by limit
  decreasing_by
    simp only [pageSize] at *
    omega

/-- A remote event server, abstracted at the collaborator boundary
(spec section 6): maps a query `(start, limit)` to the page of events
it serves. -/
def EventServer : Type := Nat → Nat → List Event

/-- The completion side of the concurrent fan-out: each finished page fetch
writes its result into the slot of its page index; `order` is the order in
which the page fetches complete.  Writes land in per-page slots, so the
final slot map does not depend on `order` (this is what the reassembly
relies on). -/
def gatherPages (fetch : Nat → List Event) (order : List Nat) :
    Nat → Option (List Event) :=
  order.foldl (fun acc i => fun j => if j = i then some (fetch i) else acc j)
    (fun _ => none)

/-- The fetch task of page `i`: query the server with that page's
`(start, limit)` sub-range. -/
def pageFetch (server : EventServer) (start limit : Nat) (i : Nat) :
    List Event :=
  match (pageRanges start limit)[i]? with
  | some (s, l) => server s l
  | none => []

/-- Modelled from the spec: the concurrent paginated event fetch (the
NodeClient implementation is not among the sources; spec section 4.6).
Splits `[start, start+limit)` into pages, runs the page fetches
concurrently — `order`, a permutation of the page indices, records the
completion order — and reassembles the slots in ascending start (= page
index) order before returning. -/
def eventsByHandleConc (server : EventServer) (start limit : Nat)
    (order : List Nat) : List Event :=
  ((List.range (pageRanges start limit).length).map
    (fun i => (gatherPages (pageFetch server start limit) order i).getD [])).flatten

/-- The sequential reference fetch: one page after another in ascending
start order (spec section 4.6: the result "must be indistinguishable in
ordering from a single sequential fetch covering the same range"). -/
def eventsByHandleSeq (server : EventServer) (start limit : Nat) :
    List Event :=
  ((pageRanges start limit).map (fun r => server r.1 r.2)).flatten

/-- The transfer event of sequence number `n`, as the mock server of
`src/nodeClient_test.go` serves it (`amount = 100 * seq`). -/
def mkTransferEvent (n : Nat) : Event :=
  { typeTag := "0x1::coin::TransferEvent"
    guidCreationNumber := 1
    guidAccountAddress := 0
    sequenceNumber := n
    data := n * 100 }

/-- An honest event source holding `total` events: a query `(s, l)` is
answered with the events of sequence numbers `s, s+1, ...`, at most `l` of
them and only those below `total` (short pages signal exhaustion, spec
section 4.6). -/
def honestServer (total : Nat) : EventServer := fun s l =>
  (List.range (min l (total - s))).map (fun i => mkTransferEvent (s + i))

/-- Each slot of the gathered page map holds its own page's result as soon
as that page's index occurs in the completion order, independently of where
in the order it occurs. -/
theorem gatherPages_apply (fetch : Nat → List Event) (order : List Nat)
    (j : Nat) :
    gatherPages fetch order j = if j ∈ order then some (fetch j) else none := by
  unfold gatherPages
  suffices h : ∀ acc : Nat → Option (List Event),
      (order.foldl (fun acc i => fun j => if j = i then some (fetch i) else acc j)
        acc) j = if j ∈ order then some (fetch j) else acc j by
    simpa using h (fun _ => none)
  induction order with
  | nil => intro acc; simp
  | cons a rest ih =>
      intro acc
      simp only [List.foldl_cons, ih, List.mem_cons]
      by_cases hj : j ∈ rest
      · simp [hj]
      · by_cases hja : j = a
        · subst hja; simp [hj]
        · simp [hj, hja]

/-- Deterministic reassembly: as long as every page index completes, the
concurrently gathered result equals the sequential reference fetch,
whatever the completion order was. -/
theorem eventsByHandleConc_eq_seq (server : EventServer) (start limit : Nat)
    (order : List Nat)
    (hmem : ∀ i, i < (pageRanges start limit).length → i ∈ order) :
    eventsByHandleConc server start limit order =
      eventsByHandleSeq server start limit := by
  unfold eventsByHandleConc eventsByHandleSeq
  congr 1
  apply List.ext_getElem
  · simp
  · intro i h1 h2
    have hi : i < (pageRanges start limit).length := by simpa using h1
    simp only [List.getElem_map, List.getElem_range]
    rw [gatherPages_apply, if_pos (hmem i hi)]
    simp [pageFetch, List.getElem?_eq_getElem hi]

/-- A server holding at least `s + l` events answers the query `(s, l)`
with the full page of events `s, ..., s + l - 1`. -/
theorem honestServer_full (total s l : Nat) (h : s + l ≤ total) :
    honestServer total s l = (List.range l).map (fun i => mkTransferEvent (s + i)) := by
  unfold honestServer
  have hmin : min l (total - s) = l := by omega
  rw [hmin]

/-- Against an honest server with enough events, the sequential reference
fetch over `[start, start + limit)` yields exactly the events of sequence
numbers `start, ..., start + limit - 1` in order. -/
theorem eventsByHandleSeq_honest (total : Nat) :
    ∀ limit start, start + limit ≤ total →
      eventsByHandleSeq (honestServer total) start limit =
        (List.range limit).map (fun i => mkTransferEvent (start + i)) := by
  intro limit
  induction limit using Nat.strong_induction_on with
  | _ limit ih =>
    intro start h
    unfold eventsByHandleSeq
    rw [pageRanges]
    by_cases hle : limit ≤ pageSize
    · simp [hle, honestServer_full total start limit h]
    · rw [if_neg hle]
      obtain ⟨m, rfl⟩ : ∃ m, limit = pageSize + m := ⟨limit - pageSize, by omega⟩
      simp only [List.map_cons, List.flatten_cons, Nat.add_sub_cancel_left]
      have h2 := ih m (by simp only [pageSize] at hle ⊢; omega)
        (start + pageSize) (by omega)
      unfold eventsByHandleSeq at h2
      rw [h2, honestServer_full total start pageSize (by omega), List.range_add,
        List.map_append, List.map_map]
      congr 1
      apply List.map_congr_left
      intro i _
      show mkTransferEvent (start + pageSize + i) = mkTransferEvent (start + (pageSize + i))
      congr 1
      omega

/-- C1: for every valid `(start, limit)` with `limit` greater than one
page size, the paginated event fetch (`EventsByHandle`, and
`EventsByCreationNumber`, which shares the same pagination algorithm and
differs only in the endpoint abstracted by the server) against a source
holding at least `start + limit` events returns exactly `limit` event
records in strictly ascending sequence-number order beginning at `start`
(`record[i].SequenceNumber = start + i`), for every completion order of the
concurrent per-page fetches. -/
theorem C1_eventsByHandle_ordered (total start limit : Nat) (order : List Nat)
    (_hpage : pageSize < limit) (htotal : start + limit ≤ total)
    (hperm : order.Perm (List.range (pageRanges start limit).length)) :
    (eventsByHandleConc (honestServer total) start limit order).length = limit ∧
    ∀ i, ∀ h : i < (eventsByHandleConc (honestServer total) start limit order).length,
      ((eventsByHandleConc (honestServer total) start limit order).get
        ⟨i, h⟩).sequenceNumber = start + i := by
  have hmem : ∀ i, i < (pageRanges start limit).length → i ∈ order := by
    intro i hi
    rw [hperm.mem_iff]
    simpa using hi
  rw [eventsByHandleConc_eq_seq (honestServer total) start limit order hmem,
    eventsByHandleSeq_honest total limit start htotal]
  constructor
  · simp
  · intro i h
    simp [mkTransferEvent]

/-- Witness for C1: `start = 0`, `limit = 150` against a 150-event source,
with the two concurrent page fetches completing in reversed order. -/
theorem C1_eventsByHandle_ordered_witness :
    pageSize < 150 ∧ (0 : Nat) + 150 ≤ 150 ∧
    ([1, 0] : List Nat).Perm (List.range (pageRanges 0 150).length) ∧
    ((eventsByHandleConc (honestServer 150) 0 150 [1, 0]).length = 150 ∧
      ∀ i, ∀ h : i < (eventsByHandleConc (honestServer 150) 0 150 [1, 0]).length,
        ((eventsByHandleConc (honestServer 150) 0 150 [1, 0]).get
          ⟨i, h⟩).sequenceNumber = 0 + i) := by
  have hpr : pageRanges 0 150 = [(0, 100), (100, 50)] := by
    rw [pageRanges, pageRanges]
    decide
  have hperm : ([1, 0] : List Nat).Perm (List.range (pageRanges 0 150).length) := by
    rw [hpr]
    decide
  exact ⟨by decide, by decide,
    hperm, C1_eventsByHandle_ordered 150 0 150 [1, 0] (by decide) (by decide) hperm⟩

/-- Response of the transaction-by-hash endpoint to one poll request: the
transaction is committed, the node does not know it yet (HTTP 404 /
"not found"), or some other (hard) transport error occurred. -/
inductive PollResp where
  | committed
  | notFound
  | hardError (msg : String)
  deriving Repr, DecidableEq

/-- Result of a poll loop, carrying the wall time elapsed at exit. -/
inductive PollResult where
  | success (elapsed : Nat)
  | timedOut (elapsed : Nat)
  | failed (msg : String) (elapsed : Nat)
  | fuelOut (elapsed : Nat)
  deriving Repr, DecidableEq

/-- Modelled from the spec: the confirmation poll loop for a single
transaction hash (the NodeClient implementation of `PollForTransaction` is
not among the sources; spec sections 4.5 and 8).  The deadline (`timeout`)
is fixed once at entry; `elapsed` is the wall time since entry and
advances by `period` per iteration; `backend k` is the response to the
`k`-th request.  Committed means success; elapsed beyond the timeout
means timeout failure; a 404/"not found" response means still pending, so
sleep one period and retry — and so does any other per-request transport
error: spec section 4.5 clause (c) would report a non-404 error
immediately, but the repository, in its own test
(src/nodeClient_test.go:15-29, an always-hard-erroring backend polled for
the full 10ms timeout, "API error on every GET is fine"), and spec
section 8 ("against an always-erroring/always-unknown backend returns a
failure only after at least timeout") both show the poller tolerates hard
errors until the deadline, so the model follows them.  `fuel` bounds the
recursion and is immaterial whenever `period > 0` and the fuel exceeds
the iterations that fit in the timeout. -/
def pollLoop (backend : Nat → PollResp) (period timeout : Nat) :
    Nat → Nat → Nat → PollResult
  | 0, _, elapsed => .fuelOut elapsed
  | fuel + 1, k, elapsed =>
    if timeout < elapsed then .timedOut elapsed
    else
      match backend k with
      | .committed => .success elapsed
      | .notFound => pollLoop backend period timeout fuel (k + 1) (elapsed + period)
      | .hardError _ => pollLoop backend period timeout fuel (k + 1) (elapsed + period)

/-- `PollForTransaction` with the poll options already resolved
(`src/client.go:704-706` delegates here). -/
def pollForTransaction (backend : Nat → PollResp) (period timeout : Nat) :
    PollResult :=
  pollLoop backend period timeout (timeout + 2) 0 0

/-- One iteration of the plural poller over the still-pending hashes:
committed hashes are removed; a hash answered with "not found" — or with
any other per-request transport error, which the poller tolerates like a
404 (see `pollLoop`) — stays pending. -/
def pollStep (resp : String → PollResp) : List String → List String
  | [] => []
  | h :: rest =>
    match resp h with
    | .committed => pollStep resp rest
    | .notFound => h :: pollStep resp rest
    | .hardError _ => h :: pollStep resp rest

/-- Modelled from the spec: the plural confirmation poller (the NodeClient
implementation of `PollForTransactions` is not among the sources; spec
sections 4.5 and 8, with per-request errors tolerated until the deadline
as in `pollLoop`): aggregate success only when every hash commits before
the deadline, fixed at entry. -/
def pollLoopMany (backend : Nat → String → PollResp) (period timeout : Nat) :
    Nat → Nat → Nat → List String → PollResult
  | 0, _, elapsed, _ => .fuelOut elapsed
  | fuel + 1, k, elapsed, pending =>
    if pending.isEmpty then .success elapsed
    else if timeout < elapsed then .timedOut elapsed
    else
      pollLoopMany backend period timeout fuel (k + 1) (elapsed + period)
        (pollStep (backend k) pending)

/-- `PollForTransactions` with the poll options already resolved
(`src/client.go:718-720` delegates here). -/
def pollForTransactions (backend : Nat → String → PollResp)
    (txnHashes : List String) (period timeout : Nat) : PollResult :=
  pollLoopMany backend period timeout (timeout + 2) 0 0 txnHashes

/-- Against a backend that never reports the transaction committed —
404s, hard transport errors, or any mixture — the single poll loop runs
to its deadline and reports a timeout, with the exit time in
`(timeout, timeout + period]`; no per-request error is ever surfaced. -/
theorem pollLoop_noCommit_timedOut (backend : Nat → PollResp)
    (period timeout : Nat) (hnc : ∀ j, backend j ≠ .committed) :
    ∀ fuel k elapsed, elapsed ≤ timeout + period →
      timeout < elapsed + fuel * period →
      ∃ e2, pollLoop backend period timeout (fuel + 1) k elapsed = .timedOut e2 ∧
        timeout < e2 ∧ e2 ≤ timeout + period := by
  intro fuel
  induction fuel with
  | zero =>
      intro k elapsed h1 h2
      simp only [Nat.zero_mul, Nat.add_zero] at h2
      exact ⟨elapsed, by simp [pollLoop, h2], h2, h1⟩
  | succ f ih =>
      intro k elapsed h1 h2
      by_cases hlt : timeout < elapsed
      · exact ⟨elapsed, by simp [pollLoop, hlt], hlt, h1⟩
      · have hstep : pollLoop backend period timeout (f + 1 + 1) k elapsed
            = pollLoop backend period timeout (f + 1) (k + 1) (elapsed + period) := by
          rcases hbk : backend k with _ | _ | msg
          · exact absurd hbk (hnc k)
          · simp [pollLoop, hlt, hbk]
          · simp [pollLoop, hlt, hbk]
        rw [hstep]
        exact ih (k + 1) (elapsed + period) (by omega) (by
          have : elapsed + (f + 1) * period = elapsed + period + f * period := by ring
          omega)

/-- A polling round over hashes none of which the backend reports
committed keeps every hash pending. -/
theorem pollStep_noCommit (resp : String → PollResp)
    (hnc : ∀ h, resp h ≠ .committed) :
    ∀ l : List String, pollStep resp l = l := by
  intro l
  induction l with
  | nil => rfl
  | cons h rest ih =>
      rcases hr : resp h with _ | _ | msg
      · exact absurd hr (hnc h)
      · simp [pollStep, hr, ih]
      · simp [pollStep, hr, ih]

/-- Against a backend that never reports any hash committed, the plural
poll loop runs to its deadline and reports a timeout, with the exit time
in `(timeout, timeout + period]`; no per-request error is ever
surfaced. -/
theorem pollLoopMany_noCommit_timedOut (backend : Nat → String → PollResp)
    (period timeout : Nat) (hashes : List String)
    (hnc : ∀ k h, backend k h ≠ .committed) (hne : hashes ≠ []) :
    ∀ fuel k elapsed, elapsed ≤ timeout + period →
      timeout < elapsed + fuel * period →
      ∃ e2, pollLoopMany backend period timeout (fuel + 1) k elapsed hashes
        = .timedOut e2 ∧ timeout < e2 ∧ e2 ≤ timeout + period := by
  have hne2 : hashes.isEmpty = false := by
    cases hashes with
    | nil => exact absurd rfl hne
    | cons a l => rfl
  intro fuel
  induction fuel with
  | zero =>
      intro k elapsed h1 h2
      simp only [Nat.zero_mul, Nat.add_zero] at h2
      exact ⟨elapsed, by simp [pollLoopMany, hne2, h2], h2, h1⟩
  | succ f ih =>
      intro k elapsed h1 h2
      by_cases hlt : timeout < elapsed
      · exact ⟨elapsed, by simp [pollLoopMany, hne2, hlt], hlt, h1⟩
      · have hstep : pollLoopMany backend period timeout (f + 1 + 1) k elapsed hashes
            = pollLoopMany backend period timeout (f + 1) (k + 1)
                (elapsed + period) hashes := by
          simp [pollLoopMany, hne2, hlt,
            pollStep_noCommit (backend k) (fun h => hnc k h)]
        rw [hstep]
        exact ih (k + 1) (elapsed + period) (by omega) (by
          have : elapsed + (f + 1) * period = elapsed + period + f * period := by ring
          omega)

/-- C2: `PollForTransactions` against a backend that never reports any
transaction committed — always hard-erroring, always "unknown" (404), or
any mixture — returns a failure (the distinct timeout failure), and it
does so only after at least the configured timeout has elapsed and at
most one poll period beyond it, for every positive period and timeout and
every non-empty hash list; e.g. timeout 10, period 2 exits at elapsed 12,
inside the test window `[9, 20)` of src/nodeClient_test.go:26-27. -/
theorem C2_pollForTransactions_failure_after_timeout
    (backend : Nat → String → PollResp) (txnHashes : List String)
    (period timeout : Nat) (hp : 1 ≤ period) (hne : txnHashes ≠ [])
    (hnc : ∀ k h, backend k h ≠ .committed) :
    ∃ e, pollForTransactions backend txnHashes period timeout = .timedOut e ∧
      timeout < e ∧ e ≤ timeout + period := by
  unfold pollForTransactions
  have := pollLoopMany_noCommit_timedOut backend period timeout txnHashes hnc hne
    (timeout + 1) 0 0 (by omega) (by nlinarith)
  simpa using this

/-- Witness for C2: timeout 10, period 2, hashes `["alice", "bob"]` as in
`TestPollForTransaction`, against an always-hard-erroring backend
(connection refused) and against an always-404 backend; the concrete exit
time is 12, inside the test window `[9, 20)`. -/
theorem C2_pollForTransactions_failure_after_timeout_witness :
    ((1 ≤ 2 ∧ (["alice", "bob"] : List String) ≠ [] ∧
      (∀ (k : Nat) (h : String),
        (fun _ : Nat => fun _ : String => PollResp.hardError "connection refused") k h
          ≠ PollResp.committed) ∧
      (∀ (k : Nat) (h : String),
        (fun _ : Nat => fun _ : String => PollResp.notFound) k h
          ≠ PollResp.committed)) ∧
      (∃ e, pollForTransactions
          (fun _ _ => PollResp.hardError "connection refused")
          ["alice", "bob"] 2 10 = .timedOut e ∧ 10 < e ∧ e ≤ 10 + 2) ∧
      (∃ e, pollForTransactions (fun _ _ => PollResp.notFound)
          ["alice", "bob"] 2 10 = .timedOut e ∧ 10 < e ∧ e ≤ 10 + 2)) ∧
    (pollForTransactions (fun _ _ => PollResp.hardError "connection refused")
        ["alice", "bob"] 2 10 = .timedOut 12 ∧
      9 ≤ 12 ∧ 12 < 20) :=
  ⟨⟨⟨by decide, by decide, fun _ _ => by simp, fun _ _ => by simp⟩,
    C2_pollForTransactions_failure_after_timeout
      (fun _ _ => PollResp.hardError "connection refused") ["alice", "bob"] 2 10
      (by decide) (by decide) (fun _ _ => by simp),
    C2_pollForTransactions_failure_after_timeout
      (fun _ _ => PollResp.notFound) ["alice", "bob"] 2 10
      (by decide) (by decide) (fun _ _ => by simp)⟩,
    ⟨rfl, by decide, by decide⟩⟩

/-- C6 (counterexample): a hard (non-404) transport error does not
terminate polling immediately and is not the returned error — at period 2
and timeout 10 against a backend whose every request fails with
"connection refused", `PollForTransaction` polls to its deadline and
returns a timeout at elapsed 12, not the transport failure at elapsed 0
that clause (c) of spec section 4.5 would demand; this is the behavior
the repository asserts in src/nodeClient_test.go:15-29. -/
theorem C6_hardError_polled_to_deadline_counterexample :
    pollForTransaction (fun _ => PollResp.hardError "connection refused") 2 10
        = .timedOut 12 ∧
      PollResult.timedOut 12 ≠ PollResult.failed "connection refused" 0 :=
  ⟨rfl, by decide⟩

/-- C6 (amended): during `PollForTransaction`/`PollForTransactions`, a
404/"not found" response is treated as "still pending": it never
terminates the polling loop and is never surfaced as the returned error —
and the same holds of every other per-request transport error: with a
backend that never reports the transaction committed (404s, hard errors,
or any mixture of both), the poller keeps issuing requests until its
deadline and then reports the distinct timeout failure, exiting in
`(timeout, timeout + period]`. -/
theorem C6_poll_errors_still_pending (backend : Nat → PollResp)
    (period timeout : Nat) (hp : 1 ≤ period)
    (hnc : ∀ j, backend j ≠ .committed) :
    ∃ e, pollForTransaction backend period timeout = .timedOut e ∧
      timeout < e ∧ e ≤ timeout + period := by
  unfold pollForTransaction
  have := pollLoop_noCommit_timedOut backend period timeout hnc
    (timeout + 1) 0 0 (by omega) (by nlinarith)
  simpa using this

/-- Witness for the amended C6: period 2, timeout 10, against a backend
alternating 404 and hard-error responses. -/
theorem C6_poll_errors_still_pending_witness :
    (1 ≤ 2 ∧
      (∀ j : Nat, (fun i : Nat => if i % 2 = 0 then PollResp.notFound
        else PollResp.hardError "transport failure") j ≠ PollResp.committed)) ∧
    (∃ e, pollForTransaction
        (fun i => if i % 2 = 0 then PollResp.notFound
          else PollResp.hardError "transport failure") 2 10
      = .timedOut e ∧ 10 < e ∧ e ≤ 10 + 2) :=
  ⟨⟨by decide, fun j => by by_cases hj : j % 2 = 0 <;> simp [hj]⟩,
    C6_poll_errors_still_pending
      (fun i => if i % 2 = 0 then PollResp.notFound
        else PollResp.hardError "transport failure") 2 10
      (by decide) (fun j => by by_cases hj : j % 2 = 0 <;> simp [hj])⟩

/-- The chain-id state of a NodeClient: the chain id supplied at
construction (`0` means "not supplied, fetch on demand",
src/client.go:18) and the memoized value of the first successful
node-info fetch. -/
structure ChainIdCache where
  cfgChainId : Nat
  cache : Option Nat
  deriving Repr, DecidableEq

/-- Modelled from the spec: `GetChainId` (the NodeClient implementation is
not among the sources, only the facade src/client.go:850-852; spec section
4.1).  `fetch` is the node-info collaborator answer at the moment of the
call.  Returns the call result, the updated state, and the number of
network fetches issued by this call: a non-zero configured chain id is
returned without any network call; otherwise a cached value is returned
without refetching; otherwise the value is fetched, cached on success, and
a failure is propagated leaving the cache empty. -/
def getChainId (fetch : Except String Nat) (st : ChainIdCache) :
    Except String Nat × ChainIdCache × Nat :=
  if st.cfgChainId ≠ 0 then (.ok st.cfgChainId, st, 0)
  else
    match st.cache with
    | some c => (.ok c, st, 0)
    | none =>
      match fetch with
      | .ok v => (.ok v, { st with cache := some v }, 1)
      | .error e => (.error e, st, 1)

/-- The state after a sequence of `GetChainId` calls, one per collaborator
answer in `fetches`. -/
def runGetChainId (st : ChainIdCache) (fetches : List (Except String Nat)) :
    ChainIdCache :=
  fetches.foldl (fun s f => (getChainId f s).2.1) st

/-- A populated cache survives any later sequence of `GetChainId` calls
unchanged: the cached value, once written, never changes. -/
theorem runGetChainId_cache_stable (fetches : List (Except String Nat)) :
    ∀ st c, st.cache = some c → (runGetChainId st fetches).cache = some c := by
  induction fetches with
  | nil => intro st c h; simpa [runGetChainId] using h
  | cons f rest ih =>
      intro st c h
      have hstep : ((getChainId f st).2.1).cache = some c := by
        unfold getChainId
        by_cases hcfg : st.cfgChainId ≠ 0
        · simp [hcfg, h]
        · simp [hcfg, h]
      have hrun : runGetChainId st (f :: rest)
          = runGetChainId (getChainId f st).2.1 rest := rfl
      rw [hrun]
      exact ih _ c hstep

/-- C3: a non-zero configured chain id is returned with no network
call; with a zero configured chain id, the first successful call fetches
once and caches, every later call returns the cached value with zero
fetches, a fetch failure is propagated with the cache left empty so a
later call may retry and succeed, and a cached value never changes for
the life of the client (any sequence of further calls preserves it). -/
theorem C3_getChainId_cache_policy (cfg v : Nat) (e : String)
    (fetch : Except String Nat) (fetches : List (Except String Nat))
    (st : ChainIdCache) (c : Nat)
    (hcfg : cfg ≠ 0) (hc : st.cache = some c) :
    getChainId fetch { cfgChainId := cfg, cache := none }
      = (.ok cfg, { cfgChainId := cfg, cache := none }, 0) ∧
    getChainId (.ok v) { cfgChainId := 0, cache := none }
      = (.ok v, { cfgChainId := 0, cache := some v }, 1) ∧
    getChainId fetch { cfgChainId := 0, cache := some v }
      = (.ok v, { cfgChainId := 0, cache := some v }, 0) ∧
    getChainId (.error e) { cfgChainId := 0, cache := none }
      = (.error e, { cfgChainId := 0, cache := none }, 1) ∧
    getChainId (.ok v) ((getChainId (.error e)
        { cfgChainId := 0, cache := none }).2.1)
      = (.ok v, { cfgChainId := 0, cache := some v }, 1) ∧
    (runGetChainId st fetches).cache = some c := by
  refine ⟨by simp [getChainId, hcfg], by simp [getChainId], by simp [getChainId],
    by simp [getChainId], by simp [getChainId],
    runGetChainId_cache_stable fetches st c hc⟩

/-- Witness for C3: configured chain id 4; fetched chain id 58; a failing
fetch; and a client carrying the cached value 58 through two further
calls. -/
theorem C3_getChainId_cache_policy_witness :
    ((4 : Nat) ≠ 0 ∧
      (ChainIdCache.mk 0 (some 58)).cache = some 58) ∧
    (getChainId (.error "dns failure") { cfgChainId := 4, cache := none }
        = (.ok 4, { cfgChainId := 4, cache := none }, 0) ∧
      getChainId (.ok 58) { cfgChainId := 0, cache := none }
        = (.ok 58, { cfgChainId := 0, cache := some 58 }, 1) ∧
      getChainId (.error "dns failure") { cfgChainId := 0, cache := some 58 }
        = (.ok 58, { cfgChainId := 0, cache := some 58 }, 0) ∧
      getChainId (.error "dns failure") { cfgChainId := 0, cache := none }
        = (.error "dns failure", { cfgChainId := 0, cache := none }, 1) ∧
      getChainId (.ok 58) ((getChainId (.error "dns failure")
          { cfgChainId := 0, cache := none }).2.1)
        = (.ok 58, { cfgChainId := 0, cache := some 58 }, 1) ∧
      (runGetChainId { cfgChainId := 0, cache := some 58 }
        [.error "dns failure", .ok 7]).cache = some 58) :=
  ⟨⟨by decide, rfl⟩,
    C3_getChainId_cache_policy 4 58 "dns failure" (.error "dns failure")
      [.error "dns failure", .ok 7] { cfgChainId := 0, cache := some 58 } 58
      (by decide) rfl⟩

/-- A signed transaction, opaque bytes to the submission pipeline (spec
section 3); abstracted to its payload value. -/
structure SignedTransaction where
  payload : Nat
  deriving Repr, DecidableEq

/-- A per-transaction failure record of the batch endpoint: the position
of the failed entry in the submitted batch together with the offending
transaction. -/
structure TransactionFailure where
  transactionIndex : Nat
  txn : SignedTransaction
  deriving Repr, DecidableEq

/-- Batch submission response: one failure record per failed entry, in
input order; an empty list means full success (src/client.go:793-796
documents this contract). -/
structure BatchSubmitTransactionResponse where
  transactionFailures : List TransactionFailure
  deriving Repr, DecidableEq

/-- The failure records for the batch entries starting at input position
`i`: walk the batch in order, recording a failure for each rejected
entry. -/
def batchFailures (accepts : SignedTransaction → Bool) :
    Nat → List SignedTransaction → List TransactionFailure
  | _, [] => []
  | i, t :: rest =>
    if accepts t then batchFailures accepts (i + 1) rest
    else { transactionIndex := i, txn := t } :: batchFailures accepts (i + 1) rest

/-- Modelled from the spec: `BatchSubmitTransaction` (the NodeClient
implementation is not among the sources, only the facade
src/client.go:816-818; spec section 4.4): submits the whole list in one
request; the collaborator judges each entry (`accepts`), and the response
carries an explicit per-transaction failure record for each failed entry,
in input order; an empty failure list means full success. -/
def batchSubmitTransaction (accepts : SignedTransaction → Bool)
    (txns : List SignedTransaction) : BatchSubmitTransactionResponse :=
  { transactionFailures := batchFailures accepts 0 txns }

/-- The batch failure list has exactly one record per rejected entry. -/
theorem batchFailures_length (accepts : SignedTransaction → Bool) :
    ∀ l i, (batchFailures accepts i l).length
      = (l.filter (fun t => !(accepts t))).length := by
  intro l
  induction l with
  | nil => intro i; simp [batchFailures]
  | cons t rest ih =>
      intro i
      by_cases h : accepts t <;> simp [batchFailures, h, ih]

/-- The batch failure list is empty exactly when every entry was
accepted. -/
theorem batchFailures_empty_iff (accepts : SignedTransaction → Bool) :
    ∀ l i, batchFailures accepts i l = [] ↔ ∀ t ∈ l, accepts t = true := by
  intro l
  induction l with
  | nil => intro i; simp [batchFailures]
  | cons t rest ih =>
      intro i
      by_cases h : accepts t <;> simp [batchFailures, h, ih]

/-- Every batch failure record points at a genuinely rejected entry at its
recorded input position (positions counted from `i`). -/
theorem batchFailures_sound (accepts : SignedTransaction → Bool) :
    ∀ l i f, f ∈ batchFailures accepts i l →
      accepts f.txn = false ∧ i ≤ f.transactionIndex ∧
        l[f.transactionIndex - i]? = some f.txn := by
  intro l
  induction l with
  | nil => intro i f hf; simp [batchFailures] at hf
  | cons t rest ih =>
      intro i f hf
      by_cases h : accepts t
      · simp only [batchFailures, if_pos h] at hf
        obtain ⟨h1, h2, h3⟩ := ih (i + 1) f hf
        refine ⟨h1, by omega, ?_⟩
        have harith : f.transactionIndex - i = (f.transactionIndex - (i + 1)) + 1 := by
          omega
        rw [harith]
        simpa using h3
      · simp only [batchFailures, if_neg h, List.mem_cons] at hf
        rcases hf with hf | hf
        · subst hf
          simp [h]
        · obtain ⟨h1, h2, h3⟩ := ih (i + 1) f hf
          refine ⟨h1, by omega, ?_⟩
          have harith : f.transactionIndex - i = (f.transactionIndex - (i + 1)) + 1 := by
            omega
          rw [harith]
          simpa using h3

/-- Every rejected entry of the batch gets a failure record at its input
position. -/
theorem batchFailures_complete (accepts : SignedTransaction → Bool) :
    ∀ l i j t, l[j]? = some t → accepts t = false →
      { transactionIndex := i + j, txn := t } ∈ batchFailures accepts i l := by
  intro l
  induction l with
  | nil => intro i j t hj; simp at hj
  | cons u rest ih =>
      intro i j t hj ht
      match j with
      | 0 =>
          simp only [List.getElem?_cons_zero, Option.some.injEq] at hj
          subst hj
          simp [batchFailures, ht]
      | Nat.succ j0 =>
          simp only [List.getElem?_cons_succ] at hj
          have hmem := ih (i + 1) j0 t hj ht
          have harith : i + (j0 + 1) = (i + 1) + j0 := by omega
          rw [harith]
          by_cases h : accepts u <;> simp [batchFailures, h, hmem]

/-- Failure records are listed in strictly increasing input position, i.e.
in the order the failed entries appeared in the input. -/
theorem batchFailures_sorted (accepts : SignedTransaction → Bool) :
    ∀ l i, (batchFailures accepts i l).Pairwise
      (fun f g => f.transactionIndex < g.transactionIndex) := by
  intro l
  induction l with
  | nil => intro i; simp [batchFailures]
  | cons t rest ih =>
      intro i
      by_cases h : accepts t
      · simpa [batchFailures, h] using ih (i + 1)
      · simp only [batchFailures, if_neg h]
        refine List.Pairwise.cons ?_ (ih (i + 1))
        intro g hg
        have := (batchFailures_sound accepts rest (i + 1) g hg).2.1
        simpa using by omega

/-- C4: the batch submission response has exactly one failure record
per rejected entry; it is empty exactly when all transactions succeeded
(so a returned response does not imply the absence of per-item failures);
each record identifies a genuinely rejected entry at its input position;
every rejected entry is recorded; and the records appear in the order the
failed entries appeared in the input. -/
theorem C4_batchSubmitTransaction_failures (accepts : SignedTransaction → Bool)
    (txns : List SignedTransaction) :
    (batchSubmitTransaction accepts txns).transactionFailures.length
        = (txns.filter (fun t => !(accepts t))).length ∧
    ((batchSubmitTransaction accepts txns).transactionFailures = []
        ↔ ∀ t ∈ txns, accepts t = true) ∧
    (∀ f ∈ (batchSubmitTransaction accepts txns).transactionFailures,
        accepts f.txn = false ∧ txns[f.transactionIndex]? = some f.txn) ∧
    (∀ j t, txns[j]? = some t → accepts t = false →
        { transactionIndex := j, txn := t }
          ∈ (batchSubmitTransaction accepts txns).transactionFailures) ∧
    (batchSubmitTransaction accepts txns).transactionFailures.Pairwise
        (fun f g => f.transactionIndex < g.transactionIndex) := by
  refine ⟨batchFailures_length accepts txns 0,
    batchFailures_empty_iff accepts txns 0, ?_, ?_,
    batchFailures_sorted accepts txns 0⟩
  · intro f hf
    have h := batchFailures_sound accepts txns 0 f hf
    exact ⟨h.1, by simpa using h.2.2⟩
  · intro j t hj ht
    simpa using batchFailures_complete accepts txns 0 j t hj ht

/-- Witness for C4: a batch of three transactions in which exactly the
middle one (payload 11) is rejected yields the single failure record
`(index 1, payload 11)`; a batch of all-valid ones yields the empty
list. -/
theorem C4_batchSubmitTransaction_failures_witness :
    ((batchSubmitTransaction (fun t => t.payload != 11)
        [⟨10⟩, ⟨11⟩, ⟨12⟩]).transactionFailures.length
          = ([⟨10⟩, ⟨11⟩, ⟨12⟩].filter
              (fun t : SignedTransaction => !(t.payload != 11))).length ∧
      ((batchSubmitTransaction (fun t => t.payload != 11)
          [⟨10⟩, ⟨11⟩, ⟨12⟩]).transactionFailures = []
        ↔ ∀ t ∈ ([⟨10⟩, ⟨11⟩, ⟨12⟩] : List SignedTransaction),
            (t.payload != 11) = true) ∧
      (∀ f ∈ (batchSubmitTransaction (fun t => t.payload != 11)
          [⟨10⟩, ⟨11⟩, ⟨12⟩]).transactionFailures,
        (f.txn.payload != 11) = false ∧
          ([⟨10⟩, ⟨11⟩, ⟨12⟩] : List SignedTransaction)[f.transactionIndex]?
            = some f.txn) ∧
      (∀ j t, ([⟨10⟩, ⟨11⟩, ⟨12⟩] : List SignedTransaction)[j]? = some t →
        (t.payload != 11) = false →
        { transactionIndex := j, txn := t }
          ∈ (batchSubmitTransaction (fun t => t.payload != 11)
              [⟨10⟩, ⟨11⟩, ⟨12⟩]).transactionFailures) ∧
      (batchSubmitTransaction (fun t => t.payload != 11)
          [⟨10⟩, ⟨11⟩, ⟨12⟩]).transactionFailures.Pairwise
        (fun f g => f.transactionIndex < g.transactionIndex)) ∧
    (batchSubmitTransaction (fun t => t.payload != 11)
        [⟨10⟩, ⟨11⟩, ⟨12⟩]).transactionFailures
      = [{ transactionIndex := 1, txn := ⟨11⟩ }] ∧
    (batchSubmitTransaction (fun t => t.payload != 99)
        [⟨10⟩, ⟨11⟩, ⟨12⟩]).transactionFailures = [] :=
  ⟨C4_batchSubmitTransaction_failures (fun t => t.payload != 11) [⟨10⟩, ⟨11⟩, ⟨12⟩],
    by decide, by decide⟩

/-- An account address, abstracted from its 32-byte representation. -/
abbrev AccountAddress := Nat

/-- A raw transaction with every field resolved (spec section 3). -/
structure RawTransaction where
  sender : AccountAddress
  sequenceNumber : Nat
  payload : Nat
  maxGasAmount : Nat
  gasUnitPrice : Nat
  expirationTimestampSecs : Nat
  chainId : Nat
  deriving Repr, DecidableEq

/-- A raw transaction plus secondary signers and/or a fee payer, for the
multi-agent and fee-payer variants (spec section 3). -/
inductive RawTransactionWithData where
  | multiAgent (raw : RawTransaction) (secondarySigners : List AccountAddress)
  | multiAgentWithFeePayer (raw : RawTransaction)
      (secondarySigners : List AccountAddress) (feePayer : AccountAddress)
  deriving Repr, DecidableEq

/-- The secondary signer addresses carried by the variant. -/
def RawTransactionWithData.secondarySigners :
    RawTransactionWithData → List AccountAddress
  | .multiAgent _ s => s
  | .multiAgentWithFeePayer _ s _ => s

/-- The fee payer carried by the variant, when present. -/
def RawTransactionWithData.feePayerAddr :
    RawTransactionWithData → Option AccountAddress
  | .multiAgent _ _ => none
  | .multiAgentWithFeePayer _ _ fp => some fp

/-- The `FeePayer` / `AdditionalSigners` options recognized by
`BuildTransactionMultiAgent` (src/client.go:107, 113; spec section 3). -/
structure MultiAgentOptions where
  feePayer : Option AccountAddress
  additionalSigners : List AccountAddress
  deriving Repr, DecidableEq

/-- Modelled from the spec: `BuildTransactionMultiAgent` (the NodeClient
implementation is not among the sources, only the facade
src/client.go:899-901; spec section 4.3).  `raw` stands for the already
resolved raw transaction (option defaulting and on-chain lookups are
outside this claim).  A fee payer yields the fee-payer variant; otherwise
at least one additional signer yields the multi-agent variant; neither is
a usage error. -/
def buildTransactionMultiAgent (raw : RawTransaction)
    (opts : MultiAgentOptions) : Except String RawTransactionWithData :=
  match opts.feePayer with
  | some fp => .ok (.multiAgentWithFeePayer raw opts.additionalSigners fp)
  | none =>
    match opts.additionalSigners with
    | [] => .error "must provide either a fee payer or additional signers"
    | s :: rest => .ok (.multiAgent raw (s :: rest))

/-- C5: `BuildTransactionMultiAgent` fails with a usage error exactly
when the options contain neither a fee payer nor any additional signer;
whenever it succeeds, the returned `RawTransactionWithData` has at least
one of {secondary signers, fee payer} set. -/
theorem C5_buildTransactionMultiAgent_usage (raw : RawTransaction)
    (opts : MultiAgentOptions) :
    ((opts.feePayer = none ∧ opts.additionalSigners = [])
        ↔ ∃ e, buildTransactionMultiAgent raw opts = .error e) ∧
    (∀ r, buildTransactionMultiAgent raw opts = .ok r →
        r.secondarySigners ≠ [] ∨ r.feePayerAddr ≠ none) := by
  constructor
  · constructor
    · rintro ⟨h1, h2⟩
      exact ⟨"must provide either a fee payer or additional signers",
        by simp [buildTransactionMultiAgent, h1, h2]⟩
    · rintro ⟨e, he⟩
      rcases hfp : opts.feePayer with _ | fp
      · rcases hs : opts.additionalSigners with _ | ⟨s, rest⟩
        · exact ⟨rfl, rfl⟩
        · simp [buildTransactionMultiAgent, hfp, hs] at he
      · simp [buildTransactionMultiAgent, hfp] at he
  · intro r hr
    rcases hfp : opts.feePayer with _ | fp
    · rcases hs : opts.additionalSigners with _ | ⟨s, rest⟩
      · simp [buildTransactionMultiAgent, hfp, hs] at hr
      · simp only [buildTransactionMultiAgent, hfp, hs, Except.ok.injEq] at hr
        subst hr
        left
        simp [RawTransactionWithData.secondarySigners]
    · simp only [buildTransactionMultiAgent, hfp, Except.ok.injEq] at hr
      subst hr
      right
      simp [RawTransactionWithData.feePayerAddr]

/-- Witness for C5 at a concrete raw transaction with empty options: the
build fails with the usage error, and with a fee payer present it
succeeds with the fee payer set. -/
theorem C5_buildTransactionMultiAgent_usage_witness :
    ((({ feePayer := none, additionalSigners := [] } : MultiAgentOptions).feePayer = none ∧
        ({ feePayer := none, additionalSigners := [] } : MultiAgentOptions).additionalSigners = [])
      ↔ ∃ e, buildTransactionMultiAgent
          { sender := 1, sequenceNumber := 0, payload := 0, maxGasAmount := 100000,
            gasUnitPrice := 100, expirationTimestampSecs := 30, chainId := 4 }
          { feePayer := none, additionalSigners := [] } = .error e) ∧
    (∀ r, buildTransactionMultiAgent
        { sender := 1, sequenceNumber := 0, payload := 0, maxGasAmount := 100000,
          gasUnitPrice := 100, expirationTimestampSecs := 30, chainId := 4 }
        { feePayer := none, additionalSigners := [] } = .ok r →
      r.secondarySigners ≠ [] ∨ r.feePayerAddr ≠ none) :=
  C5_buildTransactionMultiAgent_usage
    { sender := 1, sequenceNumber := 0, payload := 0, maxGasAmount := 100000,
      gasUnitPrice := 100, expirationTimestampSecs := 30, chainId := 4 }
    { feePayer := none, additionalSigners := [] }

/-- An element of the variadic `options` list of `NewClient`
(src/client.go:529): either an `*http.Client` override (identified by a
tag standing for the pointer) or a value of any other, unrecognized type
(carrying the type name printed in the error). -/
inductive ClientOption where
  | httpClient (client : Nat)
  | unrecognized (typeName : String)
  deriving Repr, DecidableEq

/-- Whether an option is an `*http.Client` transport override. -/
def ClientOption.isHttpOverride : ClientOption → Bool
  | .httpClient _ => true
  | .unrecognized _ => false

/-- The option-validation loop at the top of `NewClient`
(src/client.go:531-541): walks the options with the http client selected
so far (`acc`) and the 1-based argument position (`i`); a second
`*http.Client` is rejected with `"NewClient only accepts one
http.Client"`, any unrecognized type with `"NewClient arg %d bad type
%T"`. -/
def goOptions : List ClientOption → Option Nat → Nat → Except String (Option Nat)
  | [], acc, _ => .ok acc
  | .httpClient c :: rest, acc, i =>
    match acc with
    | some _ => .error "NewClient only accepts one http.Client"
    | none => goOptions rest (some c) (i + 1)
  | .unrecognized t :: _, _, i =>
    .error ("NewClient arg " ++ toString i ++ " bad type " ++ t)

/-- `NewClient` option parsing (src/client.go:530-541). -/
def newClientParseOptions (options : List ClientOption) :
    Except String (Option Nat) :=
  goOptions options none 1

/-- `NetworkConfig` (src/client.go:20-26). -/
structure NetworkConfig where
  name : String
  chainId : Nat
  nodeUrl : String
  indexerUrl : String
  faucetUrl : String
  deriving Repr, DecidableEq

/-- The `Client` facade (src/client.go:522-526): the NodeClient state
relevant here (its chain-id cache) plus the optionally constructed faucet
and indexer sub-clients, recorded by their configured url. -/
structure Client where
  nodeClient : ChainIdCache
  faucetClient : Option String
  indexerClient : Option String
  deriving Repr, DecidableEq

/-- `NewClient` (src/client.go:529-577): validate options; construct the
node client; construct the indexer sub-client only when `IndexerUrl` is
non-empty and the faucet sub-client only when `FaucetUrl` is non-empty
(src/client.go:552-565); when the configured chain id is zero, eagerly
call `GetChainId` and discard both its result and its error
(src/client.go:567-570, `_, _ = nodeClient.GetChainId()`).  `fetch` is
the node-info collaborator answer during construction.  Returns the
constructed client (or the construction error) together with the number
of network calls performed: sub-client construction is purely local, so
the only possible network call is the eager chain-id fetch. -/
def newClient (config : NetworkConfig) (options : List ClientOption)
    (fetch : Except String Nat) : Except String Client × Nat :=
  match newClientParseOptions options with
  | .error e => (.error e, 0)
  | .ok _httpClient =>
    let nodeClient : ChainIdCache := { cfgChainId := config.chainId, cache := none }
    let indexerClient := if config.indexerUrl ≠ "" then some config.indexerUrl else none
    let faucetClient := if config.faucetUrl ≠ "" then some config.faucetUrl else none
    if config.chainId = 0 then
      let r := getChainId fetch nodeClient
      (.ok { nodeClient := r.2.1, faucetClient := faucetClient,
             indexerClient := indexerClient }, r.2.2)
    else
      (.ok { nodeClient := nodeClient, faucetClient := faucetClient,
             indexerClient := indexerClient }, 0)

/-- The option loop accepts exactly the lists with no unrecognized entry
and at most one http override (counting one already selected). -/
theorem goOptions_ok_iff :
    ∀ (opts : List ClientOption) (acc : Option Nat) (i : Nat),
      (∃ r, goOptions opts acc i = .ok r) ↔
        ((∀ o ∈ opts, o.isHttpOverride = true) ∧
          opts.countP ClientOption.isHttpOverride
            + (if acc.isSome then 1 else 0) ≤ 1) := by
  intro opts
  induction opts with
  | nil =>
      intro acc i
      constructor
      · intro _
        exact ⟨by simp, by cases acc <;> simp⟩
      · intro _
        exact ⟨acc, rfl⟩
  | cons o rest ih =>
      intro acc i
      match o with
      | .httpClient c =>
          match acc with
          | some a =>
              simp only [goOptions, List.countP_cons]
              constructor
              · rintro ⟨r, hr⟩
                simp at hr
              · rintro ⟨-, hcount⟩
                simp [ClientOption.isHttpOverride] at hcount
          | none =>
              simp only [goOptions]
              rw [ih (some c) (i + 1)]
              simp [ClientOption.isHttpOverride, List.countP_cons]
      | .unrecognized t =>
          constructor
          · rintro ⟨r, hr⟩
            simp [goOptions] at hr
          · rintro ⟨hall, -⟩
            have hfalse := hall (.unrecognized t) (by simp)
            simp [ClientOption.isHttpOverride] at hfalse

/-- C7: `NewClient` accepts at most one `*http.Client` option:
supplying two or more transport overrides, or any option of an
unrecognized type, makes `NewClient` return a construction error with
zero network calls performed (the error is raised before any network
call is attempted) and no client. -/
theorem C7_newClient_rejects_bad_options (config : NetworkConfig)
    (options : List ClientOption) (fetch : Except String Nat)
    (hbad : 2 ≤ options.countP ClientOption.isHttpOverride ∨
      ∃ t, ClientOption.unrecognized t ∈ options) :
    ∃ e, newClient config options fetch = (.error e, 0) := by
  have hnotok : ¬ ∃ r, newClientParseOptions options = .ok r := by
    rw [newClientParseOptions, goOptions_ok_iff options none 1]
    rintro ⟨hall, hcount⟩
    rcases hbad with hbad | ⟨t, ht⟩
    · simp only [Option.isSome_none] at hcount
      omega
    · have := hall _ ht
      simp [ClientOption.isHttpOverride] at this
  rcases hp : newClientParseOptions options with e | r
  · exact ⟨e, by simp [newClient, hp]⟩
  · exact absurd ⟨r, hp⟩ hnotok

/-- Witness for C7: two http transport overrides, and separately an
unrecognized option, each make `NewClient` fail with no network call. -/
theorem C7_newClient_rejects_bad_options_witness :
    (2 ≤ ([ClientOption.httpClient 7, ClientOption.httpClient 8] :
        List ClientOption).countP ClientOption.isHttpOverride ∨
      ∃ t, ClientOption.unrecognized t
        ∈ ([ClientOption.httpClient 7, ClientOption.httpClient 8] :
            List ClientOption)) ∧
    (∃ e, newClient
      { name := "devnet", chainId := 4, nodeUrl := "http://127.0.0.1:8080/v1",
        indexerUrl := "", faucetUrl := "" }
      [ClientOption.httpClient 7, ClientOption.httpClient 8]
      (.ok 4) = (.error e, 0)) := by
  refine ⟨Or.inl (by decide), ?_⟩
  exact C7_newClient_rejects_bad_options
    { name := "devnet", chainId := 4, nodeUrl := "http://127.0.0.1:8080/v1",
      indexerUrl := "", faucetUrl := "" }
    [ClientOption.httpClient 7, ClientOption.httpClient 8]
    (.ok 4) (Or.inl (by decide))

/-- Modelled from the spec: `Client.Fund` delegates to the faucet
sub-client (src/client.go:855-857; the FaucetClient implementation is not
among the sources): on an unconfigured faucet it fails with a clear
"unconfigured" error instead of dereferencing the missing sub-client
(spec section 9). -/
def Client.fund (c : Client) (_address : AccountAddress) (_amount : Nat) :
    Except String Unit :=
  match c.faucetClient with
  | none => .error "faucet client is not configured"
  | some _ => .ok ()

/-- Modelled from the spec: `Client.QueryIndexer` delegates to the indexer
sub-client (src/client.go:980-982; the IndexerClient implementation is not
among the sources): on an unconfigured indexer it fails with a clear
"unconfigured" error instead of dereferencing the missing sub-client
(spec section 9). -/
def Client.queryIndexer (c : Client) : Except String Unit :=
  match c.indexerClient with
  | none => .error "indexer client is not configured"
  | some _ => .ok ()

/-- Modelled from the spec: `Client.GetProcessorStatus` delegates to the
indexer sub-client (src/client.go:985-987), as `QueryIndexer` does. -/
def Client.getProcessorStatus (c : Client) (_processorName : String) :
    Except String Nat :=
  match c.indexerClient with
  | none => .error "indexer client is not configured"
  | some _ => .ok 0

/-- Modelled from the spec: `Client.GetCoinBalances` delegates to the
indexer sub-client (src/client.go:990-992), as `QueryIndexer` does. -/
def Client.getCoinBalances (c : Client) (_address : AccountAddress) :
    Except String (List Nat) :=
  match c.indexerClient with
  | none => .error "indexer client is not configured"
  | some _ => .ok []

/-- `MainnetConfig` (src/client.go:60-66): mainnet has node and indexer
urls but no faucet, "as these are real user assets". -/
def MainnetConfig : NetworkConfig :=
  { name := "mainnet"
    chainId := 1
    nodeUrl := "https://api.mainnet.aptoslabs.com/v1"
    indexerUrl := "https://api.mainnet.aptoslabs.com/v1/graphql"
    faucetUrl := "" }

/-- C8: for a client constructed with an empty `IndexerUrl` (resp. an
empty `FaucetUrl`) — each condition on its own — the indexer (resp.
faucet) sub-client is not constructed, and every operation depending on
it (`QueryIndexer`, `GetProcessorStatus`, `GetCoinBalances`; resp.
`Fund`) fails with the clear "unconfigured" error of the missing
sub-client. -/
theorem C8_unconfigured_subclients (config : NetworkConfig)
    (options : List ClientOption) (fetch : Except String Nat) (client : Client)
    (hok : (newClient config options fetch).1 = .ok client) :
    (config.indexerUrl = "" →
      client.indexerClient = none ∧
      client.queryIndexer = .error "indexer client is not configured" ∧
      (∀ p, client.getProcessorStatus p = .error "indexer client is not configured") ∧
      (∀ a, client.getCoinBalances a = .error "indexer client is not configured")) ∧
    (config.faucetUrl = "" →
      client.faucetClient = none ∧
      (∀ a amt, client.fund a amt = .error "faucet client is not configured")) := by
  have hsub : client.indexerClient
        = (if config.indexerUrl ≠ "" then some config.indexerUrl else none) ∧
      client.faucetClient
        = (if config.faucetUrl ≠ "" then some config.faucetUrl else none) := by
    rcases hp : newClientParseOptions options with e | r
    · rw [newClient] at hok
      simp [hp] at hok
    · rw [newClient] at hok
      by_cases hz : config.chainId = 0 <;>
        · simp only [hp, hz, if_pos, if_neg, ite_true, ite_false,
            reduceIte] at hok
          cases hok
          exact ⟨rfl, rfl⟩
  constructor
  · intro hi
    have hnone : client.indexerClient = none := by
      rw [hsub.1, hi]
      simp
    exact ⟨hnone, by simp [Client.queryIndexer, hnone],
      fun p => by simp [Client.getProcessorStatus, hnone],
      fun a => by simp [Client.getCoinBalances, hnone]⟩
  · intro hf
    have hnone : client.faucetClient = none := by
      rw [hsub.2, hf]
      simp
    exact ⟨hnone, fun a amt => by simp [Client.fund, hnone]⟩

/-- Witness for C8 at two independent configurations: `MainnetConfig`
(empty faucet url, configured indexer) shows `Fund` failing unconfigured
on an otherwise fully configured client; a mock config with an empty
indexer url and a configured faucet shows the indexer operations failing
unconfigured. -/
theorem C8_unconfigured_subclients_witness :
    ((newClient MainnetConfig [] (.ok 1)).1
        = .ok (Client.mk (ChainIdCache.mk 1 none) none
            (some "https://api.mainnet.aptoslabs.com/v1/graphql")) ∧
      (newClient (NetworkConfig.mk "mocknet" 4 "http://n" "" "http://f")
          [] (.ok 4)).1
        = .ok (Client.mk (ChainIdCache.mk 4 none) (some "http://f") none)) ∧
    (MainnetConfig.faucetUrl = "" →
      (Client.mk (ChainIdCache.mk 1 none) none
          (some "https://api.mainnet.aptoslabs.com/v1/graphql")).faucetClient
        = none ∧
      (∀ a amt, (Client.mk (ChainIdCache.mk 1 none) none
          (some "https://api.mainnet.aptoslabs.com/v1/graphql")).fund a amt
        = .error "faucet client is not configured")) ∧
    ((NetworkConfig.mk "mocknet" 4 "http://n" "" "http://f").indexerUrl = "" →
      (Client.mk (ChainIdCache.mk 4 none) (some "http://f") none).indexerClient
        = none ∧
      (Client.mk (ChainIdCache.mk 4 none) (some "http://f") none).queryIndexer
        = .error "indexer client is not configured" ∧
      (∀ p, (Client.mk (ChainIdCache.mk 4 none)
          (some "http://f") none).getProcessorStatus p
        = .error "indexer client is not configured") ∧
      (∀ a, (Client.mk (ChainIdCache.mk 4 none)
          (some "http://f") none).getCoinBalances a
        = .error "indexer client is not configured")) :=
  ⟨⟨rfl, rfl⟩,
    (C8_unconfigured_subclients MainnetConfig [] (.ok 1)
      (Client.mk (ChainIdCache.mk 1 none) none
        (some "https://api.mainnet.aptoslabs.com/v1/graphql")) rfl).2,
    (C8_unconfigured_subclients
      (NetworkConfig.mk "mocknet" 4 "http://n" "" "http://f") [] (.ok 4)
      (Client.mk (ChainIdCache.mk 4 none) (some "http://f") none) rfl).1⟩

/-- C10: with a zero configured chain id, `NewClient` eagerly invokes
`GetChainId` during construction and discards its result and error: even
when the eager fetch fails, construction returns a client without error,
exactly one fetch was attempted, the chain-id cache stays empty, and the
failure becomes observable only on a later explicit `GetChainId` call;
when the eager fetch succeeds, the constructed client already carries the
cached chain id. -/
theorem C10_newClient_eager_chainId (config : NetworkConfig)
    (options : List ClientOption) (e : String) (v : Nat)
    (hz : config.chainId = 0)
    (hopt : ∃ r, newClientParseOptions options = .ok r) :
    (∃ client, (newClient config options (.error e)).1 = .ok client ∧
      client.nodeClient = { cfgChainId := 0, cache := none } ∧
      (getChainId (.error e) client.nodeClient).1 = .error e) ∧
    (newClient config options (.error e)).2 = 1 ∧
    (∃ client2, (newClient config options (.ok v)).1 = .ok client2 ∧
      client2.nodeClient = { cfgChainId := 0, cache := some v }) := by
  obtain ⟨r, hr⟩ := hopt
  rw [newClientParseOptions] at hr
  refine ⟨⟨Client.mk (ChainIdCache.mk 0 none)
        (if config.faucetUrl ≠ "" then some config.faucetUrl else none)
        (if config.indexerUrl ≠ "" then some config.indexerUrl else none),
      ?_, rfl, by simp [getChainId]⟩, ?_,
    ⟨Client.mk (ChainIdCache.mk 0 (some v))
        (if config.faucetUrl ≠ "" then some config.faucetUrl else none)
        (if config.indexerUrl ≠ "" then some config.indexerUrl else none),
      ?_, rfl⟩⟩
  · simp [newClient, newClientParseOptions, hr, hz, getChainId]
  · simp [newClient, newClientParseOptions, hr, hz, getChainId]
  · simp [newClient, newClientParseOptions, hr, hz, getChainId]

/-- Witness for C10: localnet-style config with chain id 0 and a failing
node-info fetch. -/
theorem C10_newClient_eager_chainId_witness :
    (({ name := "devnet", chainId := 0, nodeUrl := "http://n", indexerUrl := "i",
        faucetUrl := "f" } : NetworkConfig).chainId = 0 ∧
      (∃ r, newClientParseOptions [ClientOption.httpClient 7] = .ok r)) ∧
    ((∃ client, (newClient
        { name := "devnet", chainId := 0, nodeUrl := "http://n", indexerUrl := "i",
          faucetUrl := "f" } [ClientOption.httpClient 7] (.error "refused")).1
        = .ok client ∧
        client.nodeClient = { cfgChainId := 0, cache := none } ∧
        (getChainId (.error "refused") client.nodeClient).1 = .error "refused") ∧
      (newClient
        { name := "devnet", chainId := 0, nodeUrl := "http://n", indexerUrl := "i",
          faucetUrl := "f" } [ClientOption.httpClient 7] (.error "refused")).2 = 1 ∧
      (∃ client2, (newClient
          { name := "devnet", chainId := 0, nodeUrl := "http://n", indexerUrl := "i",
            faucetUrl := "f" } [ClientOption.httpClient 7] (.ok 58)).1
          = .ok client2 ∧
        client2.nodeClient = { cfgChainId := 0, cache := some 58 })) :=
  ⟨⟨rfl, ⟨some 7, rfl⟩⟩,
    C10_newClient_eager_chainId
      { name := "devnet", chainId := 0, nodeUrl := "http://n", indexerUrl := "i",
        faucetUrl := "f" } [ClientOption.httpClient 7] "refused" 58 rfl ⟨some 7, rfl⟩⟩

/-- Content-type marker of a binary (BCS) encoded view request.  Modelled
from the spec (spec section 4.7: "a content-type marker distinguishing
binary from JSON view requests"; the constant referenced by the test at
src/nodeClient_test.go:297 is not defined among the sources). -/
def ContentTypeAptosViewFunctionBcs : String :=
  "application/x.aptos.view_function+bcs"

/-- Content-type marker of a plain JSON view request. -/
def ContentTypeJson : String := "application/json"

/-- A module identifier: address plus module name. -/
structure ModuleId where
  address : AccountAddress
  name : String
  deriving Repr, DecidableEq

/-- A view-function payload: module, function, type arguments, and
BCS-encoded argument byte strings (src/nodeClient_test.go:318-323). -/
structure ViewPayload where
  module : ModuleId
  function : String
  argTypes : List String
  args : List (List Nat)
  deriving Repr, DecidableEq

/-- An outgoing HTTP request as the view invoker assembles it. -/
structure ViewRequest where
  path : String
  method : String
  contentType : String
  body : List Nat
  deriving Repr, DecidableEq

/-- The BCS serialization of a view payload, a collaborator concern
treated as opaque bytes (spec section 1 non-goal); represented by the
concatenated argument bytes. -/
def bcsSerializeView (payload : ViewPayload) : List Nat :=
  payload.args.flatten

/-- Modelled from the spec: the view request construction (the NodeClient
implementation of `View`/`ViewWithResponse` is not among the sources,
only the facade src/client.go:940-942 and the test; spec section 4.7):
a POST of the binary-encoded body to the `/view` endpoint carrying the
BCS content-type marker. -/
def buildViewRequest (payload : ViewPayload) (_ledgerVersion : Option Nat) :
    ViewRequest :=
  { path := "/view"
    method := "POST"
    contentType := ContentTypeAptosViewFunctionBcs
    body := bcsSerializeView payload }

/-- A JSON value, as the view endpoint answers. -/
inductive Json where
  | str (s : String)
  | num (n : Int)
  | arr (elems : List Json)
  | obj (fields : List (String × Json))

/-- A primitive field shape of the caller-supplied decoding target. -/
inductive PrimShape where
  | str
  | num
  deriving Repr, DecidableEq

/-- The caller-supplied shape to decode a view return value into:
a primitive, an array of a shape, or an object with primitively shaped
fields (e.g. the `[]innerObj{inner string}` target of
src/nodeClient_test.go:325-328 is `arrOf (objWith [("inner", str)])`). -/
inductive Shape where
  | prim (p : PrimShape)
  | arrOf (elem : Shape)
  | objWith (fields : List (String × PrimShape))
  deriving Repr, DecidableEq

/-- A decoded typed value, mirroring the caller-supplied shape. -/
inductive Value where
  | str (s : String)
  | num (n : Int)
  | arr (elems : List Value)
  | obj (fields : List (String × Value))

/-- Decoding a primitive: shape and JSON kind must agree. -/
def decodePrim : PrimShape → Json → Except String Value
  | .str, .str s => .ok (.str s)
  | .num, .num n => .ok (.num n)
  | _, _ => .error "view response structure mismatch"

/-- Decoding one object field: look the key up in the JSON object and
decode it at the field shape; a missing key is a decoding error. -/
def decodeField (kvs : List (String × Json)) :
    String × PrimShape → Except String (String × Value)
  | (k, p) =>
    match kvs.lookup k with
    | some j => (decodePrim p j).map (fun v => (k, v))
    | none => .error ("view response missing field " ++ k)

/-- Decoding a JSON value against a caller-supplied shape: any kind or
structure mismatch is a decoding error. -/
def decode : Shape → Json → Except String Value
  | .prim p, j => decodePrim p j
  | .arrOf sh, .arr xs => (xs.mapM (decode sh)).map .arr
  | .arrOf _, _ => .error "view response structure mismatch"
  | .objWith fields, .obj kvs => (fields.mapM (decodeField kvs)).map .obj
  | .objWith _, _ => .error "view response structure mismatch"

/-- Modelled from the spec: `ViewWithResponse` decoding (spec section
4.7): the response must be a JSON array with exactly one element per
requested return-value shape; each element is decoded against its shape
in order; an arity or structure mismatch is a decoding error instead of
a value. -/
def decodeViewResponse (shapes : List Shape) (response : Json) :
    Except String (List Value) :=
  match response with
  | .arr elems =>
    if elems.length = shapes.length then
      (shapes.zip elems).mapM (fun p => decode p.1 p.2)
    else .error "view response arity mismatch"
  | _ => .error "view response structure mismatch"

/-- The JSON document presenting a typed value, used to express that
decoding returns exactly the values the server sent. -/
def encodeValue : Value → Json
  | .str s => .str s
  | .num n => .num n
  | .arr vs => .arr (vs.attach.map (fun x => encodeValue x.1))
  | .obj kvs => .obj (kvs.attach.map (fun x => (x.1.1, encodeValue x.1.2)))
  decreasing_by
  · have h := List.sizeOf_lt_of_mem x.2
    simp
    omega
  · have h := List.sizeOf_lt_of_mem x.2
    obtain ⟨⟨a, b⟩, hx⟩ := x
    simp at h ⊢
    omega

/-- Whether a typed value conforms to a shape (for objects: same keys in
the same order, no duplicate keys, conforming field values). -/
def conformsPrim : PrimShape → Value → Bool
  | .str, .str _ => true
  | .num, .num _ => true
  | _, _ => false

/-- Conformance of a value to a shape. -/
def conforms : Shape → Value → Bool
  | .prim p, v => conformsPrim p v
  | .arrOf sh, .arr vs => vs.all (fun v => conforms sh v)
  | .arrOf _, _ => false
  | .objWith fields, .obj kvs =>
      decide (kvs.map Prod.fst = fields.map Prod.fst) &&
      decide ((kvs.map Prod.fst).Nodup) &&
      (fields.zip kvs).all (fun q => conformsPrim q.1.2 q.2.2)
  | .objWith _, _ => false

/-- `mapM` over `Except` only depends on the function pointwise on the
list. -/
theorem mapM_congr {α β : Type} (f g : α → Except String β) :
    ∀ l : List α, (∀ x ∈ l, f x = g x) → l.mapM f = l.mapM g := by
  intro l
  induction l with
  | nil => intro _; rfl
  | cons a rest ih =>
      intro h
      rw [List.mapM_cons, List.mapM_cons, h a (by simp), ih (fun x hx => h x (by simp [hx]))]

/-- `mapM` over `Except` succeeds pointwise. -/
theorem mapM_ok {α β : Type} (f : α → Except String β) (g : α → β) :
    ∀ l : List α, (∀ x ∈ l, f x = .ok (g x)) → l.mapM f = .ok (l.map g) := by
  intro l
  induction l with
  | nil => intro _; rfl
  | cons a rest ih =>
      intro h
      rw [List.mapM_cons, h a (by simp), ih (fun x hx => h x (by simp [hx]))]
      rfl

/-- `mapM` after `map` composes. -/
theorem mapM_map {α β γ : Type} (g : α → β) (f : β → Except String γ) :
    ∀ l : List α, (l.map g).mapM f = l.mapM (fun x => f (g x)) := by
  intro l
  induction l with
  | nil => rfl
  | cons a rest ih => rw [List.map_cons, List.mapM_cons, List.mapM_cons, ih]

/-- Encoding an array value encodes its elements. -/
theorem encodeValue_arr (vs : List Value) :
    encodeValue (.arr vs) = .arr (vs.map encodeValue) := by
  rw [encodeValue]
  congr 1
  exact List.attach_map_coe vs encodeValue

/-- Encoding an object value encodes its field values. -/
theorem encodeValue_obj (kvs : List (String × Value)) :
    encodeValue (.obj kvs) = .obj (kvs.map (fun p => (p.1, encodeValue p.2))) := by
  rw [encodeValue]
  congr 1
  exact List.attach_map_coe kvs (fun p => (p.1, encodeValue p.2))

/-- A conforming primitive value decodes back from its JSON encoding. -/
theorem decodePrim_encode (p : PrimShape) (v : Value)
    (h : conformsPrim p v = true) : decodePrim p (encodeValue v) = .ok v := by
  cases p <;> cases v <;> simp_all [conformsPrim, decodePrim, encodeValue]

/-- A leading JSON object entry whose key occurs in none of the requested
fields does not affect their decoding. -/
theorem decodeField_skip (k : String) (j : Json) (enc : List (String × Json))
    (fields : List (String × PrimShape)) (hne : ∀ q ∈ fields, q.1 ≠ k) :
    fields.mapM (decodeField ((k, j) :: enc)) = fields.mapM (decodeField enc) := by
  apply mapM_congr
  intro q hq
  obtain ⟨k2, p2⟩ := q
  have hbeq : (k2 == k) = false := beq_eq_false_iff_ne.mpr (hne (k2, p2) hq)
  simp [decodeField, List.lookup, hbeq]

/-- Decoding the requested fields from the JSON encoding of a conforming
object recovers exactly the original key-value pairs, in field order. -/
theorem decodeFields_encode :
    ∀ (fields : List (String × PrimShape)) (kvs : List (String × Value)),
      kvs.map Prod.fst = fields.map Prod.fst →
      (kvs.map Prod.fst).Nodup →
      (∀ q ∈ fields.zip kvs, conformsPrim q.1.2 q.2.2 = true) →
      fields.mapM (decodeField (kvs.map (fun p => (p.1, encodeValue p.2)))) = .ok kvs := by
  intro fields
  induction fields with
  | nil =>
      intro kvs halign _ _
      cases kvs with
      | nil => rfl
      | cons a l => simp at halign
  | cons f fs ih =>
      intro kvs halign hnd hconf
      obtain ⟨k, p⟩ := f
      cases kvs with
      | nil => simp at halign
      | cons kv kvs2 =>
          obtain ⟨k1, v1⟩ := kv
          simp only [List.map_cons, List.cons.injEq] at halign
          obtain ⟨hk, htail⟩ := halign
          subst hk
          have hhead : decodeField
              (((k1, v1) :: kvs2).map (fun p => (p.1, encodeValue p.2))) (k1, p)
              = .ok (k1, v1) := by
            have hc := hconf ((k1, p), (k1, v1)) (by simp [List.zip_cons_cons])
            simp only [List.map_cons, decodeField, List.lookup, beq_self_eq_true]
            rw [decodePrim_encode p v1 (by simpa using hc)]
            rfl
          simp only [List.map_cons] at hnd hhead ⊢
          have hnd2 := hnd
          rw [List.nodup_cons] at hnd2
          have hne : ∀ q ∈ fs, q.1 ≠ k1 := by
            intro q hq hqk
            apply hnd2.1
            have : q.1 ∈ fs.map Prod.fst := List.mem_map_of_mem Prod.fst hq
            rw [← htail] at this
            rwa [hqk] at this
          rw [List.mapM_cons, hhead, decodeField_skip k1 (encodeValue v1) _ fs hne,
            ih kvs2 htail hnd2.2 (fun q hq => hconf q (by simp [List.zip_cons_cons, hq]))]
          rfl

/-- A conforming value decodes back from its JSON encoding: decoding
returns exactly the values the server sent. -/
theorem decode_encode : ∀ (sh : Shape) (v : Value), conforms sh v = true →
    decode sh (encodeValue v) = .ok v := by
  intro sh
  induction sh with
  | prim p =>
      intro v h
      exact decodePrim_encode p v (by simpa [conforms] using h)
  | arrOf sh ih =>
      intro v h
      cases v with
      | arr vs =>
          rw [encodeValue_arr]
          simp only [decode]
          rw [mapM_map, mapM_ok (fun x => decode sh (encodeValue x)) id vs
            (fun x hx => by
              have hc : conforms sh x = true := by
                simp only [conforms, List.all_eq_true] at h
                exact h x hx
              simpa using ih x hc)]
          simp [Except.map]
      | str s => simp [conforms] at h
      | num n => simp [conforms] at h
      | obj kvs => simp [conforms] at h
  | objWith fields =>
      intro v h
      cases v with
      | obj kvs =>
          rw [encodeValue_obj]
          simp only [decode]
          simp only [conforms, Bool.and_eq_true, decide_eq_true_eq,
            List.all_eq_true] at h
          rw [decodeFields_encode fields kvs h.1.1 h.1.2
            (fun q hq => h.2 q hq)]
          rfl
      | str s => simp [conforms] at h
      | num n => simp [conforms] at h
      | arr vs => simp [conforms] at h

/-- C9: `View`/`ViewWithResponse` builds a POST request to the `/view`
endpoint whose content-type marker is the BCS marker, distinct from the
JSON one; the JSON array response is decoded into the caller-supplied
shapes, returning exactly the values the server sent in order (any list
of conforming values round-trips); and a response of the wrong arity, or
one that is not an array at all, is rejected with a decoding error
instead of a value. -/
theorem C9_view_request_and_decoding (payload : ViewPayload)
    (lv : Option Nat) (shapes : List Shape) (vals : List Value)
    (elems : List Json) (s : String)
    (hlen : vals.length = shapes.length)
    (hconf : ((shapes.zip vals).all (fun q => conforms q.1 q.2)) = true)
    (hmis : elems.length ≠ shapes.length) :
    (buildViewRequest payload lv).path = "/view" ∧
    (buildViewRequest payload lv).method = "POST" ∧
    (buildViewRequest payload lv).contentType = ContentTypeAptosViewFunctionBcs ∧
    ContentTypeAptosViewFunctionBcs ≠ ContentTypeJson ∧
    decodeViewResponse shapes (.arr (vals.map encodeValue)) = .ok vals ∧
    (∃ e, decodeViewResponse shapes (.arr elems) = .error e) ∧
    (∃ e, decodeViewResponse shapes (.str s) = .error e) := by
  refine ⟨rfl, rfl, rfl, by decide, ?_, ?_, ?_⟩
  · simp only [decodeViewResponse, List.length_map, hlen, if_pos]
    rw [List.zip_map_right, mapM_map,
      mapM_ok _ Prod.snd _ (fun q hq => by
        have hc : conforms q.1 q.2 = true := by
          rw [List.all_eq_true] at hconf
          exact hconf q hq
        simpa using decode_encode q.1 q.2 hc)]
    rw [List.map_snd_zip shapes vals (by omega)]
  · exact ⟨"view response arity mismatch",
      by simp [decodeViewResponse, if_neg hmis]⟩
  · exact ⟨"view response structure mismatch", rfl⟩

/-- Witness for C9: the test fixture of
`src/nodeClient_test.go:284-336` — one return value shaped
`[]innerObj{inner string}` holding three address objects — together with
an empty-array (arity 0) response against one requested shape. -/
theorem C9_view_request_and_decoding_witness :
    (([Value.arr [Value.obj [("inner", Value.str "0xa")],
        Value.obj [("inner", Value.str
          "0xa0d9d647c5737a5aed08d2cfeb39c31cf901d44bc4aa024eaa7e5e68b804e011")],
        Value.obj [("inner", Value.str
          "0xaef6a8c3182e076db72d64324617114cacf9a52f28325edc10b483f7f05da0e7")]]] :
        List Value).length
      = ([Shape.arrOf (Shape.objWith [("inner", PrimShape.str)])] : List Shape).length ∧
      (((([Shape.arrOf (Shape.objWith [("inner", PrimShape.str)])] : List Shape).zip
        ([Value.arr [Value.obj [("inner", Value.str "0xa")],
          Value.obj [("inner", Value.str
            "0xa0d9d647c5737a5aed08d2cfeb39c31cf901d44bc4aa024eaa7e5e68b804e011")],
          Value.obj [("inner", Value.str
            "0xaef6a8c3182e076db72d64324617114cacf9a52f28325edc10b483f7f05da0e7")]]] :
          List Value)).all (fun q => conforms q.1 q.2)) = true) ∧
      ([] : List Json).length
        ≠ ([Shape.arrOf (Shape.objWith [("inner", PrimShape.str)])] : List Shape).length) ∧
    ((buildViewRequest
        { module := { address := 1, name := "coin" }, function := "balance",
          argTypes := ["0x1::aptos_coin::AptosCoin"], args := [[1]] } none).path
      = "/view" ∧
      (buildViewRequest
        { module := { address := 1, name := "coin" }, function := "balance",
          argTypes := ["0x1::aptos_coin::AptosCoin"], args := [[1]] } none).method
      = "POST" ∧
      (buildViewRequest
        { module := { address := 1, name := "coin" }, function := "balance",
          argTypes := ["0x1::aptos_coin::AptosCoin"], args := [[1]] } none).contentType
      = ContentTypeAptosViewFunctionBcs ∧
      ContentTypeAptosViewFunctionBcs ≠ ContentTypeJson ∧
      decodeViewResponse [Shape.arrOf (Shape.objWith [("inner", PrimShape.str)])]
        (.arr (([Value.arr [Value.obj [("inner", Value.str "0xa")],
          Value.obj [("inner", Value.str
            "0xa0d9d647c5737a5aed08d2cfeb39c31cf901d44bc4aa024eaa7e5e68b804e011")],
          Value.obj [("inner", Value.str
            "0xaef6a8c3182e076db72d64324617114cacf9a52f28325edc10b483f7f05da0e7")]]] :
          List Value).map encodeValue))
        = .ok [Value.arr [Value.obj [("inner", Value.str "0xa")],
          Value.obj [("inner", Value.str
            "0xa0d9d647c5737a5aed08d2cfeb39c31cf901d44bc4aa024eaa7e5e68b804e011")],
          Value.obj [("inner", Value.str
            "0xaef6a8c3182e076db72d64324617114cacf9a52f28325edc10b483f7f05da0e7")]]] ∧
      (∃ e, decodeViewResponse
        [Shape.arrOf (Shape.objWith [("inner", PrimShape.str)])] (.arr [])
        = .error e) ∧
      (∃ e, decodeViewResponse
        [Shape.arrOf (Shape.objWith [("inner", PrimShape.str)])] (.str "oops")
        = .error e)) :=
  ⟨⟨rfl, rfl, by decide⟩,
    C9_view_request_and_decoding
      { module := { address := 1, name := "coin" }, function := "balance",
        argTypes := ["0x1::aptos_coin::AptosCoin"], args := [[1]] }
      none
      [Shape.arrOf (Shape.objWith [("inner", PrimShape.str)])]
      [Value.arr [Value.obj [("inner", Value.str "0xa")],
        Value.obj [("inner", Value.str
          "0xa0d9d647c5737a5aed08d2cfeb39c31cf901d44bc4aa024eaa7e5e68b804e011")],
        Value.obj [("inner", Value.str
          "0xaef6a8c3182e076db72d64324617114cacf9a52f28325edc10b483f7f05da0e7")]]]
      [] "oops" rfl rfl (by decide)⟩

end AptosGo
